import Mathlib

/-!
Shallow embedding of the songbird playback controller (src/songbird.py and
src/sisc.py) and proofs about its specification claims.

The embedding models:
* the library indexer (`load_music_library` / `load_data`): sorting the catalog
  records as Python `sorted` does on tuples, asserting the `file://` scheme and
  stripping the music-root prefix with Python `str.removeprefix` semantics,
  accumulating an insertion-ordered dictionary from `(artist, album)` keys to
  path lists (`defaultdict(list)` in songbird.py);
* the device controller operations: `add_album_to_queue_and_play` (songbird.py),
  `play_album` (sisc.py), and the transport actions `action_player_prev`,
  `action_player_play`, `action_player_pause`, `action_player_stop`,
  `action_player_next`, `action_player_adjust_volume`, each returning the
  sequence of device operations it issues, with Python exception flow made
  explicit through `Except`;
* the now-playing poller tick (`update_now_playing` / `update_current_track`):
  building the display string and pushing an update only when it differs from
  the currently stored renderable.

Machine-level detail that does not affect these claims (network transport, the
textual UI framework, threads) is outside the model; device calls that can
raise a protocol rejection take an explicit `rejects` flag.
-/

instance {ε α : Type} [DecidableEq ε] [DecidableEq α] : DecidableEq (Except ε α) := fun x y =>
  match x, y with
  | Except.ok a, Except.ok b =>
    if h : a = b then isTrue (congrArg Except.ok h) else isFalse (fun hc => h (Except.ok.inj hc))
  | Except.error a, Except.error b =>
    if h : a = b then isTrue (congrArg Except.error h)
    else isFalse (fun hc => h (Except.error.inj hc))
  | Except.ok _, Except.error _ => isFalse (fun hc => Except.noConfusion hc)
  | Except.error _, Except.ok _ => isFalse (fun hc => Except.noConfusion hc)

/-- A row returned by the music catalog query in `fetch_music`:
`(artist, album, track_number, file_uri)`. -/
abbrev CatalogRecord := String × String × Int × String

/-- The in-memory library index: insertion-ordered association list from
`(artist, album)` to the list of server-relative paths, modelling the Python
dict `self.music_index` / `self.library`. -/
abbrev LibraryIndex := List ((String × String) × List String)

/-- Python exceptions relevant to the controller code. -/
inductive PyExn where
  | attributeError
  | soCoUPnPException
  | keyError
deriving DecidableEq

/-- An operation issued to the Sonos device handle. -/
inductive DeviceOp where
  | clearQueue
  | addUriToQueue (uri : String)
  | play
  | playFromQueue (index : Nat)
  | previousTrack
  | seek (timestamp : String)
  | pause
  | stop
  | nextTrack
  | setVolume (v : Int)
deriving DecidableEq

/-- Lexicographic comparison of character lists by code point: the semantics of
Python `<` on strings. -/
def charListLt : List Char → List Char → Bool
  | [], [] => false
  | [], _ :: _ => true
  | _ :: _, [] => false
  | a :: as, b :: bs => if a < b then true else if b < a then false else charListLt as bs

/-- Python `s < t` on strings. -/
def pyStrLt (s t : String) : Bool := charListLt s.data t.data

/-- Python `s.startswith(pre)`. -/
def pyStartsWith (s pre : String) : Bool := pre.data.isPrefixOf s.data

/-- Python `s.removeprefix(pre)`: drops `pre` once when it is a prefix,
otherwise returns `s` unchanged. -/
def pyRemovePrefixOnce (s pre : String) : String :=
  if pyStartsWith s pre then String.mk (s.data.drop pre.data.length) else s

/-- The track URI built in both `add_album_to_queue_and_play` and `play_album`:
`f"http://{self.http_host}:{self.http_port}{location}"`. -/
def trackUri (httpHost : String) (httpPort : Nat) (location : String) : String :=
  "http://" ++ httpHost ++ ":" ++ toString httpPort ++ location

/-- Lookup in the insertion-ordered dictionary (plain Python dict access,
`None` on a missing key models the `KeyError` site). -/
def lookupIndex : LibraryIndex → (String × String) → Option (List String)
  | [], _ => none
  | (k', vs) :: rest, k => if k' = k then some vs else lookupIndex rest k

/-- `defaultdict(list)` access `self.music_index[artist, album]`: returns the
stored list, inserting the key with an empty list (at the end of the insertion
order) when it is missing. Returns the value together with the updated dict. -/
def defaultLookup : LibraryIndex → (String × String) → List String × LibraryIndex
  | [], k => ([], [(k, [])])
  | (k', vs) :: rest, k =>
    if k' = k then (vs, (k', vs) :: rest)
    else
      let r := defaultLookup rest k
      (r.1, (k', vs) :: r.2)

/-- songbird.py `add_album_to_queue_and_play(artist, album)`: returns the
updated index (the `defaultdict` lookup may insert a key) and the device
operations issued. With no device, `self.sonos.clear_queue()` raises
`AttributeError`, which is caught and the worker returns having issued
nothing. -/
def add_album_to_queue_and_play (sonos : Option Unit) (httpHost : String) (httpPort : Nat)
    (musicIndex : LibraryIndex) (artist album : String) : LibraryIndex × List DeviceOp :=
  match sonos with
  | none => (musicIndex, [])
  | some _ =>
    let r := defaultLookup musicIndex (artist, album)
    (r.2, DeviceOp.clearQueue ::
      (r.1.map fun location => DeviceOp.addUriToQueue (trackUri httpHost httpPort location)) ++
      [DeviceOp.play])

/-- sisc.py `play_album(album, artist)`: clear the queue, add one URI per path
of `self.library[artist, album]`, then `play_from_queue(0)`. A missing key
raises `KeyError` (modelled as `none`). -/
def play_album (httpHost : String) (httpPort : Nat) (library : LibraryIndex)
    (album artist : String) : Option (List DeviceOp) :=
  match lookupIndex library (artist, album) with
  | none => none
  | some locations =>
    some (DeviceOp.clearQueue ::
      (locations.map fun location => DeviceOp.addUriToQueue (trackUri httpHost httpPort location)) ++
      [DeviceOp.playFromQueue 0])

/-- sisc.py `select_album`: only calls `play_album` when `self.sonos` is
truthy. -/
def select_album (sonos : Option Unit) (httpHost : String) (httpPort : Nat)
    (library : LibraryIndex) (album artist : String) : Except PyExn (List DeviceOp) :=
  match sonos with
  | none => Except.ok []
  | some _ =>
    match play_album httpHost httpPort library album artist with
    | none => Except.error PyExn.keyError
    | some ops => Except.ok ops

/-- A single transport call on `self.sonos`: raises `AttributeError` when the
handle is `None`, a protocol rejection when the device rejects, and otherwise
issues the operation. -/
def attemptCall (sonos : Option Unit) (rejects : Bool) (op : DeviceOp) :
    Except PyExn (List DeviceOp) :=
  match sonos with
  | none => Except.error PyExn.attributeError
  | some _ => if rejects then Except.error PyExn.soCoUPnPException else Except.ok [op]

/-- A Python `try`/`except ...: pass` block around a call: a raised exception
in the caught list yields a normal return (with nothing issued); any other
exception propagates. -/
def handleExns (caught : List PyExn) (result : Except PyExn (List DeviceOp)) :
    Except PyExn (List DeviceOp) :=
  match result with
  | Except.ok ops => Except.ok ops
  | Except.error e => if e ∈ caught then Except.ok [] else Except.error e

/-- songbird.py `action_player_play`: `try: self.sonos.play() except
(AttributeError, SoCoUPnPException): pass`. -/
def action_player_play (sonos : Option Unit) (rejects : Bool) : Except PyExn (List DeviceOp) :=
  handleExns [PyExn.attributeError, PyExn.soCoUPnPException] (attemptCall sonos rejects DeviceOp.play)

/-- songbird.py `action_player_pause`: catches `AttributeError` and
`SoCoUPnPException`. -/
def action_player_pause (sonos : Option Unit) (rejects : Bool) : Except PyExn (List DeviceOp) :=
  handleExns [PyExn.attributeError, PyExn.soCoUPnPException] (attemptCall sonos rejects DeviceOp.pause)

/-- songbird.py `action_player_stop`: catches only `AttributeError`. -/
def action_player_stop (sonos : Option Unit) (rejects : Bool) : Except PyExn (List DeviceOp) :=
  handleExns [PyExn.attributeError] (attemptCall sonos rejects DeviceOp.stop)

/-- songbird.py `action_player_next`: catches `AttributeError` and
`SoCoUPnPException`. -/
def action_player_next (sonos : Option Unit) (rejects : Bool) : Except PyExn (List DeviceOp) :=
  handleExns [PyExn.attributeError, PyExn.soCoUPnPException] (attemptCall sonos rejects DeviceOp.nextTrack)

/-- Python `f"0{position}"[-8:]`: prepend `"0"`, keep the last eight
characters (the whole string when shorter). -/
def normalizePosition (position : String) : String :=
  let padded := "0" ++ position
  String.mk (padded.data.drop (padded.data.length - 8))

/-- songbird.py `action_player_prev`: read the current track position (an
`AttributeError` on a missing device is caught and the worker returns),
normalize it, then either `previous()` or `seek("00:00:00")` depending on the
lexicographic comparison with `"00:00:04"`; a protocol rejection of the chosen
call is caught. The device's reported position string is passed alongside the
handle. -/
def action_player_prev (sonos : Option String) (rejects : Bool) : Except PyExn (List DeviceOp) :=
  match sonos with
  | none => Except.ok []
  | some rawPosition =>
    let position := normalizePosition rawPosition
    handleExns [PyExn.soCoUPnPException]
      (if rejects then Except.error PyExn.soCoUPnPException
       else if pyStrLt position "00:00:04" then Except.ok [DeviceOp.previousTrack]
       else Except.ok [DeviceOp.seek "00:00:00"])

/-- songbird.py `action_player_adjust_volume(change)`:
`self.sonos.volume = min(100, max(0, self.sonos.volume + change))`, with the
`AttributeError` on a missing device caught. -/
def action_player_adjust_volume (sonos : Option Int) (change : Int) : List DeviceOp :=
  match sonos with
  | none => []
  | some volume => [DeviceOp.setVolume (min 100 (max 0 (volume + change)))]

/-- Outcome of reading and parsing the device metadata on one poll tick. -/
inductive TickOutcome where
  | noMetadata
  | parseFailure
  | parsed (title : String) (album : Option String) (artist : Option String)

/-- The display string built by `update_now_playing`: always the bold title,
with a second line `"{artist} ⦁ {album}"` only when both are present. -/
def renderNowPlaying (title : String) (album artist : Option String) : String :=
  let base := "[bold]" ++ title ++ "[/bold]"
  match album, artist with
  | some albumText, some artistText => base ++ "\n" ++ artistText ++ " ⦁ " ++ albumText
  | _, _ => base

/-- One poll tick of `update_now_playing`: given the renderable currently shown
by the `#now-playing` widget, return the new renderable and whether an update
was pushed (`display != now_playing.renderable`). Absent or malformed metadata
makes the tick a no-op. -/
def update_now_playing (renderable : String) (outcome : TickOutcome) : String × Bool :=
  match outcome with
  | TickOutcome.noMetadata => (renderable, false)
  | TickOutcome.parseFailure => (renderable, false)
  | TickOutcome.parsed title album artist =>
    let display := renderNowPlaying title album artist
    if display ≠ renderable then (display, true) else (renderable, false)

/-- Run a sequence of poll ticks, counting how many pushed an update. -/
def pollTicks (renderable : String) : List TickOutcome → String × Nat
  | [] => (renderable, 0)
  | outcome :: rest =>
    let step := update_now_playing renderable outcome
    let tail := pollTicks step.1 rest
    (tail.1, (if step.2 then 1 else 0) + tail.2)

/-- Three-way comparison of Python strings, derived from `pyStrLt`. -/
def cmpStr (s t : String) : Ordering :=
  if pyStrLt s t then Ordering.lt else if pyStrLt t s then Ordering.gt else Ordering.eq

/-- Three-way comparison of Python ints. -/
def cmpInt (a b : Int) : Ordering :=
  if a < b then Ordering.lt else if b < a then Ordering.gt else Ordering.eq

/-- Compare through a projection. -/
def cmpOn {β α : Type} (f : β → α) (cmp : α → α → Ordering) : β → β → Ordering :=
  fun x y => cmp (f x) (f y)

/-- Python tuple comparison on catalog records, component-wise lexicographic:
the order used by `sorted(records)`. -/
def recordCmp : CatalogRecord → CatalogRecord → Ordering :=
  compareLex (cmpOn (fun r => r.1) cmpStr) <|
    compareLex (cmpOn (fun r => r.2.1) cmpStr) <|
      compareLex (cmpOn (fun r => r.2.2.1) cmpInt) (cmpOn (fun r => r.2.2.2) cmpStr)

/-- Non-strict version of the record order, used as the sort comparator. -/
def recordLeB (x y : CatalogRecord) : Bool :=
  match recordCmp x y with
  | Ordering.gt => false
  | _ => true

/-- The record order as a relation. -/
def recordLe (x y : CatalogRecord) : Prop := recordLeB x y = true

instance : DecidableRel recordLe := fun x y => instDecidableEqBool (recordLeB x y) true

/-- Python `sorted(records)`: a stable sort by tuple comparison. Two records
tied under `recordLe` are componentwise equal, so every sort by this total
order produces the same list and stability is immaterial; insertion sort is
used so the model evaluates by structural recursion. -/
def pySorted (records : List CatalogRecord) : List CatalogRecord :=
  List.insertionSort recordLe records

/-- The `(artist, album)` key of a catalog record. -/
def recordKey (r : CatalogRecord) : String × String := (r.1, r.2.1)

/-- The track number of a catalog record. -/
def recordTrack (r : CatalogRecord) : Int := r.2.2.1

/-- The file URI of a catalog record. -/
def recordLocation (r : CatalogRecord) : String := r.2.2.2

/-- One record of the `load_music_library` loop body:
`assert location.startswith("file://")` (an assertion failure aborts the
worker, modelled as `none`), then
`location.removeprefix(f"file://{self.user_music_dir}")`. -/
def processRecord (musicDir location : String) : Option String :=
  if pyStartsWith location "file://" then
    some (pyRemovePrefixOnce location ("file://" ++ musicDir))
  else none

/-- `defaultdict` append `self.music_index[artist, album].append(trimmed_path)`:
appends to the stored list, inserting the key at the end of the insertion order
when missing. -/
def dictAppend : LibraryIndex → (String × String) → String → LibraryIndex
  | [], k, v => [(k, [v])]
  | (k', vs) :: rest, k, v =>
    if k' = k then (k', vs ++ [v]) :: rest else (k', vs) :: dictAppend rest k v

/-- The `for artist, album, _, location in sorted(records)` loop of
`load_music_library`, threading the index being built. -/
def loadRecords (musicDir : String) : List CatalogRecord → LibraryIndex → Option LibraryIndex
  | [], index => some index
  | (artist, album, _, location) :: rest, index =>
    match processRecord musicDir location with
    | none => none
    | some trimmedPath => loadRecords musicDir rest (dictAppend index (artist, album) trimmedPath)

/-- songbird.py `load_music_library` (equally sisc.py `load_data`): sort the
catalog records as Python does, then fold them into the index. -/
def load_music_library (musicDir : String) (records : List CatalogRecord) :
    Option LibraryIndex :=
  loadRecords musicDir (pySorted records) []

/-- The key list of the index, in insertion order (Python `dict.keys()`). -/
def indexKeys (index : LibraryIndex) : List (String × String) := index.map (fun e => e.1)

/-- The character for a decimal digit. -/
def digitChar : Nat → Char
  | 0 => '0' | 1 => '1' | 2 => '2' | 3 => '3' | 4 => '4'
  | 5 => '5' | 6 => '6' | 7 => '7' | 8 => '8' | _ => '9'

/-- A transport position string in the `H:MM:SS` form the device reports. -/
def mkPos (h m1 m2 s1 s2 : Nat) : String :=
  String.mk [digitChar h, ':', digitChar m1, digitChar m2, ':', digitChar s1, digitChar s2]

/-- Seconds from track start denoted by an `H:MM:SS` position. -/
def posSeconds (h m1 m2 s1 s2 : Nat) : Nat :=
  3600 * h + 600 * m1 + 60 * m2 + 10 * s1 + s2

/-- Folding the per-record work of the library-loading loop over a record
list, ignoring the scheme assertion (used to describe the successful runs of
`loadRecords`). -/
def appendAll (musicDir : String) : List CatalogRecord → LibraryIndex → LibraryIndex
  | [], index => index
  | r :: rest, index =>
    appendAll musicDir rest
      (dictAppend index (recordKey r) (pyRemovePrefixOnce (recordLocation r) ("file://" ++ musicDir)))

lemma charListLt_irrefl : ∀ as : List Char, charListLt as as = false
  | [] => rfl
  | a :: as => by simp [charListLt, lt_irrefl, charListLt_irrefl as]

lemma charListLt_trans : ∀ {as bs cs : List Char}, charListLt as bs = true →
    charListLt bs cs = true → charListLt as cs = true
  | [], [], _, h1, _ => by simp [charListLt] at h1
  | [], _ :: _, [], _, h2 => by simp [charListLt] at h2
  | [], _ :: _, _ :: _, _, _ => rfl
  | _ :: _, [], _, h1, _ => by simp [charListLt] at h1
  | _ :: _, _ :: _, [], _, h2 => by simp [charListLt] at h2
  | a :: as, b :: bs, c :: cs, h1, h2 => by
    simp only [charListLt] at h1 h2 ⊢
    rcases lt_trichotomy a b with hab | hab | hab
    · rcases lt_trichotomy b c with hbc | hbc | hbc
      · rw [if_pos (lt_trans hab hbc)]
      · subst hbc; rw [if_pos hab]
      · rw [if_neg (fun h => absurd hbc (lt_asymm h)), if_pos hbc] at h2
        simp at h2
    · subst hab
      rw [if_neg (lt_irrefl a), if_neg (lt_irrefl a)] at h1
      rcases lt_trichotomy a c with hac | hac | hac
      · rw [if_pos hac]
      · subst hac
        rw [if_neg (lt_irrefl a), if_neg (lt_irrefl a)] at h2 ⊢
        exact charListLt_trans h1 h2
      · rw [if_neg (fun h => absurd hac (lt_asymm h)), if_pos hac] at h2
        simp at h2
    · rw [if_neg (fun h => absurd hab (lt_asymm h)), if_pos hab] at h1
      simp at h1

lemma charListLt_eq_of_not : ∀ {as bs : List Char}, charListLt as bs = false →
    charListLt bs as = false → as = bs
  | [], [], _, _ => rfl
  | [], _ :: _, h1, _ => by simp [charListLt] at h1
  | _ :: _, [], _, h2 => by simp [charListLt] at h2
  | a :: as, b :: bs, h1, h2 => by
    simp only [charListLt] at h1 h2
    rcases lt_trichotomy a b with hab | hab | hab
    · rw [if_pos hab] at h1; simp at h1
    · subst hab
      rw [if_neg (lt_irrefl a), if_neg (lt_irrefl a)] at h1 h2
      rw [charListLt_eq_of_not h1 h2]
    · rw [if_pos hab] at h2; simp at h2

lemma charListLt_false_trans {as bs cs : List Char} (h1 : charListLt bs as = false)
    (h2 : charListLt cs bs = false) : charListLt cs as = false := by
  cases hca : charListLt cs as with
  | false => rfl
  | true =>
    cases hab : charListLt as bs with
    | true => exact absurd (charListLt_trans hca hab) (by simp [h2])
    | false =>
      rw [charListLt_eq_of_not hab h1] at hca
      simp [hca] at h2

lemma cmpStr_self (s : String) : cmpStr s s = Ordering.eq := by
  simp [cmpStr, pyStrLt, charListLt_irrefl]

instance : Batteries.TransCmp cmpStr where
  symm x y := by
    unfold cmpStr pyStrLt
    cases h1 : charListLt x.data y.data with
    | true =>
      cases h2 : charListLt y.data x.data with
      | true => exact absurd (charListLt_trans h1 h2) (by simp [charListLt_irrefl])
      | false => simp [Ordering.swap]
    | false =>
      cases h2 : charListLt y.data x.data with
      | true => simp [Ordering.swap]
      | false => simp [Ordering.swap]
  le_trans {x y z} h1 h2 := by
    unfold cmpStr pyStrLt at h1 h2 ⊢
    cases hyx : charListLt y.data x.data with
    | true =>
      rw [if_neg, if_pos hyx] at h1
      · simp at h1
      · intro hxy
        exact absurd (charListLt_trans hxy hyx) (by simp [charListLt_irrefl])
    | false =>
      cases hzy : charListLt z.data y.data with
      | true =>
        rw [if_neg, if_pos hzy] at h2
        · simp at h2
        · intro hyz
          exact absurd (charListLt_trans hyz hzy) (by simp [charListLt_irrefl])
      | false =>
        have hzx := charListLt_false_trans hyx hzy
        cases hxz : charListLt x.data z.data with
        | true => simp
        | false => simp [hzx]

instance : Batteries.TransCmp cmpInt where
  symm x y := by
    rcases lt_trichotomy x y with h | h | h
    · simp [cmpInt, h, lt_asymm h, Ordering.swap]
    · subst h; simp [cmpInt, lt_irrefl, Ordering.swap]
    · simp [cmpInt, h, lt_asymm h, Ordering.swap]
  le_trans {x y z} h1 h2 := by
    unfold cmpInt at h1 h2 ⊢
    split_ifs at h1 h2 ⊢ <;> simp_all <;> omega

instance {β α : Type} {f : β → α} {cmp : α → α → Ordering} [Batteries.TransCmp cmp] :
    Batteries.TransCmp (cmpOn f cmp) where
  symm x y := Batteries.OrientedCmp.symm (f x) (f y)
  le_trans h1 h2 := @Batteries.TransCmp.le_trans _ cmp _ _ _ _ h1 h2

instance : Batteries.TransCmp recordCmp :=
  inferInstanceAs (Batteries.TransCmp (compareLex _ (compareLex _ (compareLex _ _))))

lemma recordLeB_eq_true_iff (x y : CatalogRecord) :
    recordLeB x y = true ↔ recordCmp x y ≠ Ordering.gt := by
  unfold recordLeB
  cases recordCmp x y <;> simp

instance : IsTrans CatalogRecord recordLe where
  trans a b c h1 h2 := by
    unfold recordLe at h1 h2 ⊢
    rw [recordLeB_eq_true_iff] at h1 h2 ⊢
    exact Batteries.TransCmp.le_trans h1 h2

instance : IsTotal CatalogRecord recordLe where
  total a b := by
    unfold recordLe
    rw [recordLeB_eq_true_iff, recordLeB_eq_true_iff]
    by_cases h : recordCmp a b = Ordering.gt
    · right
      have hsymm := @Batteries.OrientedCmp.symm _ recordCmp _ a b
      rw [h] at hsymm
      rw [← hsymm]
      simp [Ordering.swap]
    · exact Or.inl h

lemma pySorted_sorted (records : List CatalogRecord) :
    (pySorted records).Pairwise recordLe :=
  List.sorted_insertionSort recordLe records

lemma pySorted_perm (records : List CatalogRecord) : (pySorted records).Perm records :=
  List.perm_insertionSort recordLe records

lemma ordering_eq_then (o : Ordering) : Ordering.eq.then o = o := rfl

lemma ordering_gt_then (o : Ordering) : Ordering.gt.then o = Ordering.gt := rfl

lemma recordLe_same_key_track {a b : CatalogRecord} (hk : recordKey a = recordKey b)
    (h : recordLe a b) : recordTrack a ≤ recordTrack b := by
  have h1 : a.1 = b.1 := congrArg (fun p : String × String => p.1) hk
  have h2 : a.2.1 = b.2.1 := congrArg (fun p : String × String => p.2) hk
  simp only [recordLe, recordLeB, recordCmp, compareLex, cmpOn] at h
  rw [h1, h2, cmpStr_self, cmpStr_self, ordering_eq_then, ordering_eq_then] at h
  rcases lt_trichotomy a.2.2.1 b.2.2.1 with h3 | h3 | h3
  · exact le_of_lt h3
  · exact le_of_eq h3
  · exfalso
    unfold cmpInt at h
    rw [if_neg (lt_asymm h3), if_pos h3, ordering_gt_then] at h
    simp at h

lemma dictAppend_cons_eq (k : String × String) (vs : List String) (rest : LibraryIndex)
    (v : String) : dictAppend ((k, vs) :: rest) k v = (k, vs ++ [v]) :: rest := by
  simp [dictAppend]

lemma dictAppend_cons_ne {k k' : String × String} (vs : List String) (rest : LibraryIndex)
    (v : String) (h : k' ≠ k) :
    dictAppend ((k', vs) :: rest) k v = (k', vs) :: dictAppend rest k v := by
  simp [dictAppend, h]

lemma lookupIndex_cons_self (k : String × String) (vs : List String) (rest : LibraryIndex) :
    lookupIndex ((k, vs) :: rest) k = some vs := by
  simp [lookupIndex]

lemma lookupIndex_cons_ne {k k' : String × String} (vs : List String) (rest : LibraryIndex)
    (h : k ≠ k') : lookupIndex ((k, vs) :: rest) k' = lookupIndex rest k' := by
  simp [lookupIndex, h]

lemma indexKeys_cons (e : (String × String) × List String) (rest : LibraryIndex) :
    indexKeys (e :: rest) = e.1 :: indexKeys rest := rfl

lemma lookupIndex_dictAppend_self (index : LibraryIndex) (k : String × String) (v : String) :
    lookupIndex (dictAppend index k v) k = some ((lookupIndex index k).getD [] ++ [v]) := by
  induction index with
  | nil => simp [dictAppend, lookupIndex]
  | cons e rest ih =>
    obtain ⟨k', vs⟩ := e
    by_cases h : k' = k
    · subst h; simp [dictAppend, lookupIndex]
    · simp [dictAppend, lookupIndex, h, ih]

lemma lookupIndex_dictAppend_ne (index : LibraryIndex) {k k' : String × String} (v : String)
    (h : k' ≠ k) : lookupIndex (dictAppend index k v) k' = lookupIndex index k' := by
  induction index with
  | nil =>
    simp only [dictAppend, lookupIndex]
    rw [if_neg (fun e => h e.symm)]
  | cons e rest ih =>
    obtain ⟨k'', vs⟩ := e
    by_cases h2 : k'' = k
    · subst h2
      simp only [dictAppend, if_pos rfl, lookupIndex]
      rw [if_neg (fun e => h e.symm), if_neg (fun e => h e.symm)]
    · simp only [dictAppend, if_neg h2, lookupIndex, ih]

lemma indexKeys_mem_dictAppend (index : LibraryIndex) (k k' : String × String) (v : String) :
    k' ∈ indexKeys (dictAppend index k v) ↔ k' ∈ indexKeys index ∨ k' = k := by
  induction index with
  | nil => simp [dictAppend, indexKeys]
  | cons e rest ih =>
    obtain ⟨k'', vs⟩ := e
    by_cases h2 : k'' = k
    · subst h2
      rw [dictAppend_cons_eq, indexKeys_cons, indexKeys_cons]
      simp only [List.mem_cons]
      tauto
    · rw [dictAppend_cons_ne _ _ _ h2, indexKeys_cons, indexKeys_cons]
      simp only [List.mem_cons, ih]
      tauto

lemma indexKeys_nodup_dictAppend (index : LibraryIndex) (k : String × String) (v : String)
    (h : (indexKeys index).Nodup) : (indexKeys (dictAppend index k v)).Nodup := by
  induction index with
  | nil => simp [dictAppend, indexKeys]
  | cons e rest ih =>
    obtain ⟨k'', vs⟩ := e
    rw [indexKeys_cons, List.nodup_cons] at h
    by_cases h2 : k'' = k
    · subst h2
      rw [dictAppend_cons_eq, indexKeys_cons, List.nodup_cons]
      exact h
    · rw [dictAppend_cons_ne _ _ _ h2, indexKeys_cons, List.nodup_cons]
      refine ⟨?_, ih h.2⟩
      intro hmem
      rcases (indexKeys_mem_dictAppend rest k k'' v).mp hmem with hm | he
      · exact h.1 hm
      · exact h2 he

lemma lookupIndex_isSome_iff (index : LibraryIndex) (k : String × String) :
    (lookupIndex index k).isSome = true ↔ k ∈ indexKeys index := by
  induction index with
  | nil => simp [lookupIndex, indexKeys]
  | cons e rest ih =>
    obtain ⟨k', vs⟩ := e
    by_cases h : k' = k
    · subst h
      rw [lookupIndex_cons_self, indexKeys_cons]
      simp
    · rw [lookupIndex_cons_ne _ _ h, indexKeys_cons, ih]
      simp only [List.mem_cons]
      constructor
      · exact fun hm => Or.inr hm
      · rintro (he | hm)
        · exact absurd he.symm h
        · exact hm

lemma appendAll_lookup_getD (musicDir : String) : ∀ (l : List CatalogRecord)
    (index : LibraryIndex) (k : String × String),
    (lookupIndex (appendAll musicDir l index) k).getD [] =
      (lookupIndex index k).getD [] ++
        ((l.filter fun r => decide (recordKey r = k)).map
          fun r => pyRemovePrefixOnce (recordLocation r) ("file://" ++ musicDir))
  | [], index, k => by simp [appendAll]
  | r :: rest, index, k => by
    by_cases h : recordKey r = k
    · simp only [appendAll]
      rw [appendAll_lookup_getD musicDir rest _ k, h, lookupIndex_dictAppend_self]
      simp [List.filter_cons, h]
    · simp only [appendAll]
      rw [appendAll_lookup_getD musicDir rest _ k,
        lookupIndex_dictAppend_ne _ _ (fun e => h e.symm)]
      simp [List.filter_cons, h]

lemma appendAll_lookup_isSome (musicDir : String) : ∀ (l : List CatalogRecord)
    (index : LibraryIndex) (k : String × String),
    (lookupIndex (appendAll musicDir l index) k).isSome = true ↔
      (lookupIndex index k).isSome = true ∨ ∃ r ∈ l, recordKey r = k
  | [], index, k => by simp [appendAll]
  | r :: rest, index, k => by
    simp only [appendAll]
    rw [appendAll_lookup_isSome musicDir rest _ k]
    by_cases h : recordKey r = k
    · rw [h, lookupIndex_dictAppend_self]
      simp [h]
    · rw [lookupIndex_dictAppend_ne _ _ (fun e => h e.symm)]
      simp only [List.mem_cons]
      constructor
      · rintro (hs | ⟨r', hr', hk'⟩)
        · exact Or.inl hs
        · exact Or.inr ⟨r', Or.inr hr', hk'⟩
      · rintro (hs | ⟨r', hr' | hr', hk'⟩)
        · exact Or.inl hs
        · exact absurd (hr' ▸ hk') h
        · exact Or.inr ⟨r', hr', hk'⟩

lemma appendAll_keys_nodup (musicDir : String) : ∀ (l : List CatalogRecord)
    (index : LibraryIndex), (indexKeys index).Nodup →
    (indexKeys (appendAll musicDir l index)).Nodup
  | [], _, h => h
  | _ :: rest, index, h =>
    appendAll_keys_nodup musicDir rest _ (indexKeys_nodup_dictAppend index _ _ h)

lemma loadRecords_eq_appendAll (musicDir : String) : ∀ (l : List CatalogRecord)
    (index : LibraryIndex),
    (∀ r ∈ l, pyStartsWith (recordLocation r) "file://" = true) →
    loadRecords musicDir l index = some (appendAll musicDir l index)
  | [], _, _ => rfl
  | (artist, album, n, location) :: rest, index, h => by
    have hh : pyStartsWith location "file://" = true :=
      h _ (List.mem_cons_self _ _)
    simp only [loadRecords, processRecord, if_pos hh]
    exact loadRecords_eq_appendAll musicDir rest _
      (fun r hr => h r (List.mem_cons_of_mem _ hr))

lemma loadRecords_none_of_bad (musicDir : String) : ∀ (l : List CatalogRecord)
    (index : LibraryIndex) (r : CatalogRecord), r ∈ l →
    pyStartsWith (recordLocation r) "file://" = false →
    loadRecords musicDir l index = none
  | [], _, r, hr, _ => absurd hr (List.not_mem_nil r)
  | (artist, album, n, location) :: rest, index, r, hr, hbad => by
    rcases List.mem_cons.mp hr with he | hm
    · rw [he] at hbad
      simp only [recordLocation] at hbad
      simp [loadRecords, processRecord, hbad]
    · cases hp : processRecord musicDir location with
      | none => simp [loadRecords, hp]
      | some v =>
        simp only [loadRecords, hp]
        exact loadRecords_none_of_bad musicDir rest _ r hm hbad

lemma defaultLookup_of_none : ∀ (index : LibraryIndex) (k : String × String),
    lookupIndex index k = none → defaultLookup index k = ([], index ++ [(k, [])])
  | [], _, _ => rfl
  | (k', vs) :: rest, k, h => by
    by_cases hk : k' = k
    · subst hk
      rw [lookupIndex_cons_self] at h
      cases h
    · rw [lookupIndex_cons_ne _ _ hk] at h
      simp only [defaultLookup, if_neg hk, defaultLookup_of_none rest k h, List.cons_append]

lemma digitChar_not_lt_zero : ∀ a : Fin 10, ¬ (digitChar a.val < '0') := by decide

lemma zero_lt_digitChar_iff : ∀ a : Fin 10, ('0' < digitChar a.val ↔ 0 < a.val) := by decide

lemma digitChar_eq_zero_iff : ∀ a : Fin 10, (digitChar a.val = '0' ↔ a.val = 0) := by decide

lemma digitChar_lt_four_iff : ∀ a : Fin 10, (digitChar a.val < '4' ↔ a.val < 4) := by decide

lemma digitChar_eq_four_iff : ∀ a : Fin 10, (digitChar a.val = '4' ↔ a.val = 4) := by decide

lemma four_lt_digitChar_iff : ∀ a : Fin 10, ('4' < digitChar a.val ↔ 4 < a.val) := by decide

lemma normalizePosition_mkPos (h m1 m2 s1 s2 : Nat) :
    normalizePosition (mkPos h m1 m2 s1 s2) =
      String.mk ['0', digitChar h, ':', digitChar m1, digitChar m2, ':',
        digitChar s1, digitChar s2] := rfl

lemma pyStrLt_threshold (h m1 m2 s1 s2 : Fin 10) :
    pyStrLt (normalizePosition (mkPos h.val m1.val m2.val s1.val s2.val)) "00:00:04" = true ↔
      (h.val = 0 ∧ m1.val = 0 ∧ m2.val = 0 ∧ s1.val = 0 ∧ s2.val < 4) := by
  rw [normalizePosition_mkPos]
  show charListLt ['0', digitChar h.val, ':', digitChar m1.val, digitChar m2.val, ':',
      digitChar s1.val, digitChar s2.val] ['0', '0', ':', '0', '0', ':', '0', '4'] = true ↔ _
  by_cases hh : h.val = 0
  · rw [(digitChar_eq_zero_iff h).mpr hh]
    by_cases hm1 : m1.val = 0
    · rw [(digitChar_eq_zero_iff m1).mpr hm1]
      by_cases hm2 : m2.val = 0
      · rw [(digitChar_eq_zero_iff m2).mpr hm2]
        by_cases hs1 : s1.val = 0
        · rw [(digitChar_eq_zero_iff s1).mpr hs1]
          rcases lt_trichotomy s2.val 4 with h4 | h4 | h4
          · simp [charListLt, (digitChar_lt_four_iff s2).mpr h4, hh, hm1, hm2, hs1, h4]
          · rw [(digitChar_eq_four_iff s2).mpr h4]
            simp only [charListLt, lt_irrefl, if_neg (lt_irrefl _)]
            simp [hh, hm1, hm2, hs1, h4]
          · have hnlt : ¬ (digitChar s2.val < '4') := by
              rw [digitChar_lt_four_iff]
              omega
            simp only [charListLt]
            simp [hnlt, (four_lt_digitChar_iff s2).mpr h4, hh, hm1, hm2, hs1]
            omega
        · have hpos := (zero_lt_digitChar_iff s1).mpr (Nat.pos_of_ne_zero hs1)
          simp [charListLt, digitChar_not_lt_zero s1, hpos, hs1]
      · have hpos := (zero_lt_digitChar_iff m2).mpr (Nat.pos_of_ne_zero hm2)
        simp [charListLt, digitChar_not_lt_zero m2, hpos, hm2]
    · have hpos := (zero_lt_digitChar_iff m1).mpr (Nat.pos_of_ne_zero hm1)
      simp [charListLt, digitChar_not_lt_zero m1, hpos, hm1]
  · have hpos := (zero_lt_digitChar_iff h).mpr (Nat.pos_of_ne_zero hh)
    simp [charListLt, digitChar_not_lt_zero h, hpos, hh]

lemma update_now_playing_stay {renderable st : String} {outcome : TickOutcome}
    (h : update_now_playing renderable outcome = (st, false)) : st = renderable := by
  cases outcome with
  | noMetadata => simpa using congrArg Prod.fst h.symm
  | parseFailure => simpa using congrArg Prod.fst h.symm
  | parsed title album artist =>
    by_cases hd : renderNowPlaying title album artist ≠ renderable
    · rw [update_now_playing, if_pos hd] at h
      cases h
    · rw [update_now_playing, if_neg hd] at h
      simpa using congrArg Prod.fst h.symm

lemma update_now_playing_after_update {renderable st : String} {outcome : TickOutcome}
    (h : update_now_playing renderable outcome = (st, true)) :
    update_now_playing st outcome = (st, false) := by
  cases outcome with
  | noMetadata => cases h
  | parseFailure => cases h
  | parsed title album artist =>
    by_cases hd : renderNowPlaying title album artist ≠ renderable
    · rw [update_now_playing, if_pos hd] at h
      have hst : st = renderNowPlaying title album artist := (congrArg Prod.fst h).symm
      subst hst
      rw [update_now_playing, if_neg (fun hne => hne rfl)]
    · rw [update_now_playing, if_neg hd] at h
      cases h

lemma pollTicks_stable : ∀ (n : Nat) (st : String) (outcome : TickOutcome),
    update_now_playing st outcome = (st, false) →
    pollTicks st (List.replicate n outcome) = (st, 0)
  | 0, _, _, _ => rfl
  | n + 1, st, outcome, h => by
    rw [List.replicate_succ]
    simp only [pollTicks, h, pollTicks_stable n st outcome h]
    simp

/-- C2: for every `(artist, album)` key present in the library index,
`play_album` issues exactly this sequence: clear the device queue, then one
queue addition per path in the index's order with entry
`"http://" ++ host ++ ":" ++ port ++ path`, then start playback from the first
queued entry (`play_from_queue(0)`). -/
theorem play_album_command_sequence (httpHost : String) (httpPort : Nat)
    (library : LibraryIndex) (album artist : String) (paths : List String)
    (hfound : lookupIndex library (artist, album) = some paths) :
    play_album httpHost httpPort library album artist =
      some (DeviceOp.clearQueue ::
        (paths.map fun location =>
          DeviceOp.addUriToQueue
            ("http://" ++ httpHost ++ ":" ++ toString httpPort ++ location)) ++
        [DeviceOp.playFromQueue 0]) := by
  simp [play_album, hfound, trackUri]

/-- Witness for C2 at a concrete two-track library. -/
theorem play_album_command_sequence_witness :
    lookupIndex [(("a", "x"), ["/t1.mp3", "/t2.mp3"])] ("a", "x") =
      some ["/t1.mp3", "/t2.mp3"] ∧
    play_album "192.168.1.2" 8080 [(("a", "x"), ["/t1.mp3", "/t2.mp3"])] "x" "a" =
      some [DeviceOp.clearQueue,
        DeviceOp.addUriToQueue "http://192.168.1.2:8080/t1.mp3",
        DeviceOp.addUriToQueue "http://192.168.1.2:8080/t2.mp3",
        DeviceOp.playFromQueue 0] :=
  ⟨by decide,
    (play_album_command_sequence "192.168.1.2" 8080 [(("a", "x"), ["/t1.mp3", "/t2.mp3"])]
      "x" "a" ["/t1.mp3", "/t2.mp3"] (by decide)).trans (by decide)⟩

/-- C3 is false as stated: a catalog URI that starts with `file://` but lies
outside the configured music root is not rejected; the library loads and the
URI is stored unchanged (the `removeprefix` call leaves it untouched). -/
theorem load_music_library_unrooted_uri_cex :
    pyStartsWith "file:///mnt/other/t.mp3" ("file://" ++ "/home/user/Music") = false ∧
    load_music_library "/home/user/Music" [("a", "b", 1, "file:///mnt/other/t.mp3")] =
      some [(("a", "b"), ["file:///mnt/other/t.mp3"])] :=
  ⟨by decide, by decide⟩

/-- C3 (amended): when a URI carries the full configured root prefix the stored
path is the URI with that prefix removed exactly once; a URI lacking the
`file://` scheme makes the load fail fast; but a URI with the scheme and
without the full root prefix is stored unchanged rather than rejected. -/
theorem processRecord_root_behavior :
    (∀ musicDir location, pyStartsWith location ("file://" ++ musicDir) = true →
      processRecord musicDir location =
        some (String.mk (location.data.drop ("file://" ++ musicDir).data.length))) ∧
    (∀ musicDir location, pyStartsWith location "file://" = true →
      pyStartsWith location ("file://" ++ musicDir) = false →
      processRecord musicDir location = some location) ∧
    (∀ (musicDir : String) (records : List CatalogRecord) (r : CatalogRecord), r ∈ records →
      pyStartsWith (recordLocation r) "file://" = false →
      load_music_library musicDir records = none) := by
  refine ⟨?_, ?_, ?_⟩
  · intro musicDir location hfull
    have hscheme : pyStartsWith location "file://" = true := by
      rw [pyStartsWith, List.isPrefixOf_iff_prefix] at hfull ⊢
      refine List.IsPrefix.trans ?_ hfull
      rw [String.data_append]
      exact List.prefix_append _ _
    rw [processRecord, if_pos hscheme, pyRemovePrefixOnce, if_pos hfull]
  · intro musicDir location hscheme hfull
    rw [processRecord, if_pos hscheme, pyRemovePrefixOnce, if_neg (by simp [hfull])]
  · intro musicDir records r hmem hbad
    rw [load_music_library]
    exact loadRecords_none_of_bad musicDir _ [] r
      ((pySorted_perm records).mem_iff.mpr hmem) hbad

/-- Witness for the amended C3 at concrete records. -/
theorem processRecord_root_behavior_witness :
    processRecord "/mu" "file:///mu/a.mp3" =
      some (String.mk (("file:///mu/a.mp3" : String).data.drop
        ("file://" ++ "/mu" : String).data.length)) ∧
    processRecord "/mu" "file:///zz/a.mp3" = some "file:///zz/a.mp3" ∧
    load_music_library "/mu" [("a", "b", 1, "bad://x")] = none :=
  ⟨processRecord_root_behavior.1 "/mu" "file:///mu/a.mp3" (by decide),
   processRecord_root_behavior.2.1 "/mu" "file:///zz/a.mp3" (by decide) (by decide),
   processRecord_root_behavior.2.2 "/mu" [("a", "b", 1, "bad://x")] ("a", "b", 1, "bad://x")
     (by decide) (by decide)⟩

/-- C4: `action_player_prev` invokes the previous-track operation exactly when
the reported `H:MM:SS` position denotes less than four seconds from track
start, and otherwise seeks the current track to `00:00:00` (the code prepends
`"0"`, keeps the last eight characters and compares lexicographically against
`"00:00:04"`); in particular position `00:00:02` yields previous-track and
`00:00:10` yields the seek. -/
theorem action_player_prev_threshold :
    (∀ h m1 m2 s1 s2 : Fin 10,
      action_player_prev (some (mkPos h.val m1.val m2.val s1.val s2.val)) false =
        Except.ok [if posSeconds h.val m1.val m2.val s1.val s2.val < 4 then
          DeviceOp.previousTrack
        else DeviceOp.seek "00:00:00"]) ∧
    action_player_prev (some "00:00:02") false = Except.ok [DeviceOp.previousTrack] ∧
    action_player_prev (some "00:00:10") false = Except.ok [DeviceOp.seek "00:00:00"] := by
  refine ⟨?_, by decide, by decide⟩
  intro h m1 m2 s1 s2
  have hb1 := h.isLt
  have hb2 := m1.isLt
  have hb3 := m2.isLt
  have hb4 := s1.isLt
  have hb5 := s2.isLt
  cases hb : pyStrLt (normalizePosition (mkPos h.val m1.val m2.val s1.val s2.val)) "00:00:04" with
  | true =>
    obtain ⟨e1, e2, e3, e4, e5⟩ := (pyStrLt_threshold h m1 m2 s1 s2).mp hb
    have hc : posSeconds h.val m1.val m2.val s1.val s2.val < 4 := by
      unfold posSeconds
      omega
    simp [action_player_prev, handleExns, hb, hc]
  | false =>
    have hc : ¬ posSeconds h.val m1.val m2.val s1.val s2.val < 4 := by
      intro hlt
      have hz : h.val = 0 ∧ m1.val = 0 ∧ m2.val = 0 ∧ s1.val = 0 ∧ s2.val < 4 := by
        unfold posSeconds at hlt
        omega
      rw [(pyStrLt_threshold h m1 m2 s1 s2).mpr hz] at hb
      cases hb
    simp [action_player_prev, handleExns, hb, hc]

/-- C5: with no discovered device (handle `None`), every playback-mutating
operation returns without error and issues no device operation. -/
theorem commands_before_discovery_noop :
    (∀ (httpHost : String) (httpPort : Nat) (musicIndex : LibraryIndex) (artist album : String),
      add_album_to_queue_and_play none httpHost httpPort musicIndex artist album =
        (musicIndex, [])) ∧
    (∀ (httpHost : String) (httpPort : Nat) (library : LibraryIndex) (album artist : String),
      select_album none httpHost httpPort library album artist = Except.ok []) ∧
    (∀ rejects, action_player_prev none rejects = Except.ok []) ∧
    (∀ rejects, action_player_play none rejects = Except.ok []) ∧
    (∀ rejects, action_player_pause none rejects = Except.ok []) ∧
    (∀ rejects, action_player_stop none rejects = Except.ok []) ∧
    (∀ rejects, action_player_next none rejects = Except.ok []) ∧
    (∀ change, action_player_adjust_volume none change = []) :=
  ⟨fun _ _ _ _ _ => rfl, fun _ _ _ _ _ => rfl, fun _ => rfl, fun _ => rfl,
   fun _ => rfl, fun _ => rfl, fun _ => rfl, fun _ => rfl⟩

/-- C6 is false as stated: `action_player_stop` catches only `AttributeError`,
so a protocol-level rejection of `stop` propagates out of the handler. -/
theorem action_player_stop_rejection_propagates :
    action_player_stop (some ()) true = Except.error PyExn.soCoUPnPException := by decide

/-- C6 (amended): device rejections are swallowed by previous, play, pause and
next, which return successfully with nothing propagated; `stop` swallows only
the missing-device case and lets a protocol rejection escape. -/
theorem transport_rejections_swallowed :
    (∀ position, action_player_prev (some position) true = Except.ok []) ∧
    action_player_play (some ()) true = Except.ok [] ∧
    action_player_pause (some ()) true = Except.ok [] ∧
    action_player_next (some ()) true = Except.ok [] ∧
    action_player_stop (some ()) true = Except.error PyExn.soCoUPnPException :=
  ⟨fun _ => rfl, rfl, rfl, rfl, rfl⟩

/-- C7: for every record list whose URIs carry the `file://` scheme, the built
library index's keys are exactly the distinct `(artist, album)` pairs of the
input (duplicate-free), and each per-album path sequence is that album's
records arranged in ascending track-number order. -/
theorem load_music_library_keys_sorted (musicDir : String) (records : List CatalogRecord)
    (hpre : ∀ r ∈ records, pyStartsWith (recordLocation r) "file://" = true) :
    ∃ index, load_music_library musicDir records = some index ∧
      (∀ k, k ∈ indexKeys index ↔ ∃ r ∈ records, recordKey r = k) ∧
      (indexKeys index).Nodup ∧
      (∀ k paths, lookupIndex index k = some paths →
        ∃ rs : List CatalogRecord,
          rs.Perm (records.filter fun r => decide (recordKey r = k)) ∧
          rs.Pairwise (fun a b => recordTrack a ≤ recordTrack b) ∧
          paths = rs.map fun r =>
            pyRemovePrefixOnce (recordLocation r) ("file://" ++ musicDir)) := by
  have hpre' : ∀ r ∈ pySorted records, pyStartsWith (recordLocation r) "file://" = true :=
    fun r hr => hpre r ((pySorted_perm records).mem_iff.mp hr)
  refine ⟨appendAll musicDir (pySorted records) [], ?_, ?_, ?_, ?_⟩
  · rw [load_music_library]
    exact loadRecords_eq_appendAll musicDir _ [] hpre'
  · intro k
    rw [← lookupIndex_isSome_iff, appendAll_lookup_isSome]
    constructor
    · rintro (hfalse | ⟨r, hr, hk⟩)
      · simp [lookupIndex] at hfalse
      · exact ⟨r, (pySorted_perm records).mem_iff.mp hr, hk⟩
    · rintro ⟨r, hr, hk⟩
      exact Or.inr ⟨r, (pySorted_perm records).mem_iff.mpr hr, hk⟩
  · exact appendAll_keys_nodup musicDir _ [] (by simp [indexKeys])
  · intro k paths hlook
    have hgetD := appendAll_lookup_getD musicDir (pySorted records) [] k
    rw [hlook] at hgetD
    simp only [Option.getD_some, lookupIndex, Option.getD_none, List.nil_append] at hgetD
    refine ⟨(pySorted records).filter (fun r => decide (recordKey r = k)), ?_, ?_, hgetD⟩
    · exact (pySorted_perm records).filter _
    · have hp : ((pySorted records).filter (fun r => decide (recordKey r = k))).Pairwise recordLe :=
        (pySorted_sorted records).filter _
      refine List.Pairwise.imp_of_mem ?_ hp
      intro a b ha hb hr
      have hka := of_decide_eq_true (List.mem_filter.mp ha).2
      have hkb := of_decide_eq_true (List.mem_filter.mp hb).2
      exact recordLe_same_key_track (by rw [hka, hkb]) hr

/-- Witness for C7 at a concrete three-record catalog. -/
theorem load_music_library_keys_sorted_witness :
    (∀ r ∈ ([("b", "y", (2 : Int), "file:///m/b2.mp3"), ("a", "x", 2, "file:///m/a2.mp3"),
        ("a", "x", 1, "file:///m/a1.mp3")] : List CatalogRecord),
      pyStartsWith (recordLocation r) "file://" = true) ∧
    ∃ index, load_music_library "/m" [("b", "y", 2, "file:///m/b2.mp3"),
        ("a", "x", 2, "file:///m/a2.mp3"), ("a", "x", 1, "file:///m/a1.mp3")] = some index ∧
      (∀ k, k ∈ indexKeys index ↔ ∃ r ∈ ([("b", "y", (2 : Int), "file:///m/b2.mp3"),
          ("a", "x", 2, "file:///m/a2.mp3"), ("a", "x", 1, "file:///m/a1.mp3")] :
          List CatalogRecord), recordKey r = k) ∧
      (indexKeys index).Nodup ∧
      (∀ k paths, lookupIndex index k = some paths →
        ∃ rs : List CatalogRecord,
          rs.Perm (([("b", "y", (2 : Int), "file:///m/b2.mp3"), ("a", "x", 2, "file:///m/a2.mp3"),
            ("a", "x", 1, "file:///m/a1.mp3")] : List CatalogRecord).filter
              fun r => decide (recordKey r = k)) ∧
          rs.Pairwise (fun a b => recordTrack a ≤ recordTrack b) ∧
          paths = rs.map fun r => pyRemovePrefixOnce (recordLocation r) ("file://" ++ "/m")) :=
  ⟨by decide, load_music_library_keys_sorted "/m" _ (by decide)⟩

/-- C8: a poll tick pushes a display update only when the newly rendered view
differs from the stored renderable (a tick whose view renders equal is
suppressed), and any run of identical tick outcomes pushes at most one
update. -/
theorem now_playing_dedup :
    (∀ (renderable title : String) (album artist : Option String),
      renderNowPlaying title album artist = renderable →
      update_now_playing renderable (TickOutcome.parsed title album artist) =
        (renderable, false)) ∧
    (∀ (renderable : String) (outcome : TickOutcome),
      (update_now_playing renderable outcome).2 = true →
      (update_now_playing renderable outcome).1 ≠ renderable) ∧
    (∀ (renderable : String) (outcome : TickOutcome) (n : Nat),
      (pollTicks renderable (List.replicate n outcome)).2 ≤ 1) := by
  refine ⟨?_, ?_, ?_⟩
  · intro renderable title album artist hEq
    rw [update_now_playing, if_neg (fun hne => hne hEq)]
  · intro renderable outcome hupd
    cases outcome with
    | noMetadata => simp [update_now_playing] at hupd
    | parseFailure => simp [update_now_playing] at hupd
    | parsed title album artist =>
      by_cases hd : renderNowPlaying title album artist ≠ renderable
      · rw [update_now_playing, if_pos hd]
        exact hd
      · rw [update_now_playing, if_neg hd] at hupd
        simp at hupd
  · intro renderable outcome n
    induction n generalizing renderable with
    | zero => simp [pollTicks]
    | succ n ih =>
      rw [List.replicate_succ]
      cases hstep : update_now_playing renderable outcome with
      | mk st b =>
        cases b with
        | false =>
          have hst := update_now_playing_stay hstep
          subst hst
          simp only [pollTicks, hstep]
          simpa using ih st
        | true =>
          have hnext := update_now_playing_after_update hstep
          simp only [pollTicks, hstep, pollTicks_stable n st outcome hnext]
          simp

/-- Witness for C8: a tick rendering the already-shown view pushes nothing,
and five identical ticks push at most one update. -/
theorem now_playing_dedup_witness :
    update_now_playing (renderNowPlaying "T" (some "Al") (some "Ar"))
      (TickOutcome.parsed "T" (some "Al") (some "Ar")) =
      (renderNowPlaying "T" (some "Al") (some "Ar"), false) ∧
    (pollTicks "No music selected" (List.replicate 5 (TickOutcome.parsed "T" none none))).2 ≤ 1 :=
  ⟨now_playing_dedup.1 _ "T" (some "Al") (some "Ar") rfl, now_playing_dedup.2.2 _ _ 5⟩

/-- C9 is false as stated: a playback request whose `(artist, album)` key is
absent from the index is not validated away; clear-queue and play are still
issued and the `defaultdict` lookup inserts the missing key into the index. -/
theorem playback_request_not_validated_cex :
    lookupIndex [(("a", "x"), ["/t1.mp3"])] ("b", "y") = none ∧
    (add_album_to_queue_and_play (some ()) "h" 8080 [(("a", "x"), ["/t1.mp3"])] "b" "y").2 =
      [DeviceOp.clearQueue, DeviceOp.play] ∧
    (add_album_to_queue_and_play (some ()) "h" 8080 [(("a", "x"), ["/t1.mp3"])] "b" "y").1 ≠
      [(("a", "x"), ["/t1.mp3"])] :=
  ⟨by decide, by decide, by decide⟩

/-- C9 (amended): no validation against the library index happens; with a
device present and a missing `(artist, album)` key,
`add_album_to_queue_and_play` still issues clear-queue and play with zero
queue additions, and the index gains that key mapped to the empty path
list. -/
theorem add_album_missing_key_behavior (httpHost : String) (httpPort : Nat)
    (musicIndex : LibraryIndex) (artist album : String)
    (hmiss : lookupIndex musicIndex (artist, album) = none) :
    add_album_to_queue_and_play (some ()) httpHost httpPort musicIndex artist album =
      (musicIndex ++ [((artist, album), [])], [DeviceOp.clearQueue, DeviceOp.play]) := by
  simp [add_album_to_queue_and_play, defaultLookup_of_none _ _ hmiss]

/-- Witness for the amended C9. -/
theorem add_album_missing_key_behavior_witness :
    lookupIndex [(("a", "x"), ["/t1.mp3"])] ("c", "z") = none ∧
    add_album_to_queue_and_play (some ()) "host" 9090 [(("a", "x"), ["/t1.mp3"])] "c" "z" =
      ([(("a", "x"), ["/t1.mp3"]), (("c", "z"), [])], [DeviceOp.clearQueue, DeviceOp.play]) :=
  ⟨by decide,
    (add_album_missing_key_behavior "host" 9090 _ "c" "z" (by decide)).trans (by decide)⟩

/-- C10: with a device at volume `v` in `[0, 100]` and any delta, the volume
written back is exactly `min 100 (max 0 (v + delta))`, which always lies in
`[0, 100]`. -/
theorem adjust_volume_clamps (volume change : Int) (_h0 : 0 ≤ volume) (_h100 : volume ≤ 100) :
    action_player_adjust_volume (some volume) change =
      [DeviceOp.setVolume (min 100 (max 0 (volume + change)))] ∧
    0 ≤ min 100 (max 0 (volume + change)) ∧
    min 100 (max 0 (volume + change)) ≤ 100 :=
  ⟨rfl, le_min (by norm_num) (le_max_left 0 _), min_le_left _ _⟩

/-- Witness for C10 at the spec's example volumes: 98 + 5 clamps to 100 and
2 - 5 clamps to 0. -/
theorem adjust_volume_clamps_witness :
    action_player_adjust_volume (some 98) 5 = [DeviceOp.setVolume 100] ∧
    action_player_adjust_volume (some 2) (-5) = [DeviceOp.setVolume 0] :=
  ⟨(adjust_volume_clamps 98 5 (by decide) (by decide)).1.trans (by decide),
   (adjust_volume_clamps 2 (-5) (by decide) (by decide)).1.trans (by decide)⟩
